import Mathlib

/-!
Shallow embedding of the gdk signer abstraction declared in `src/src/signer.hpp`.

The source sample is the class declaration only (its enums, factories, method
signatures and member fields); the behaviour behind each declared method is
modelled from the specification, as the doc comments of the individual
definitions record.  Stateful methods (those not declared `const` in the
header) are embedded as explicit state-passing functions `signer → args →
result × signer`; fallible methods return `Except error_code _`.
-/

/-- Error taxonomy of the specification (§7): input, capability, decryption,
availability, conflict and device-class failures. -/
inductive error_code where
  | InvalidInput
  | NotSupported
  | DecryptionError
  | Unavailable
  | Conflict
  | DerivationError
  | DeviceUnavailable
  | SigningRejected
  | DeviceTimeout
deriving DecidableEq

/-- Enum to represent the level of support for Liquid on a HW
(signer.hpp lines 14-17). -/
inductive liquid_support_level where
  | none
  | lite
deriving DecidableEq

/-- Enum to indicate whether AE-protocol signatures are supported/mandatory
(signer.hpp lines 20-24). -/
inductive ae_protocol_support_level where
  | none
  | optional
  | mandatory
deriving DecidableEq

/-- Modelled from the spec: the network/chain context consumed read-only by the
signer (§6) — mainnet flag, confidential-asset-chain flag, address-version
byte.  The concrete `network_parameters` class is not part of the source
sample. -/
structure network_parameters where
  is_main_net : Bool
  is_liquid : Bool
  btc_version : Nat
deriving DecidableEq

/-- The secp256k1 group order, the modulus for private-key scalars. -/
def secpOrder : Nat :=
  115792089237316195423570985008687907852837564279074904382605163141518161494337

/-- First index treated as hardened, per the standard HD-wallet convention of
encoding hardened indices with the top bit of a 32-bit index set (§6). -/
def hardenedBound : Nat := 2147483648

/-- Derivation-path indices are unsigned 32-bit values (§6); anything at or
above this bound is an overflowing path element. -/
def indexBound : Nat := 4294967296

/-- Modelled from the spec: the generator multiplier of the elliptic-curve
group, whose primitives are external (§1, §6).  The group is modelled as the
integers modulo `secpOrder`, a public key being the private scalar times this
fixed constant. -/
def gGen : Nat :=
  55066263022277343669578718895168534326250603453777594175500187360389116729240

/-- Modelled from the spec: the HMAC-SHA512 step of BIP32 child derivation, an
external primitive (§6 "Primitive crypto library").  Modelled as a fixed
deterministic mixing function of chain code, key data and index, returning the
left half (the scalar tweak) and the right half (the child chain code). -/
def hmacStep (chain data idx : Nat) : Nat × Nat :=
  let h := (chain * 6364136223846793005 + data * 1442695040888963407
      + idx * 2862933555777941757 + 3037000493) % (2 ^ 512)
  (h % (2 ^ 256), h / (2 ^ 256))

/-- Modelled from the spec: HMAC over byte strings, the external primitive used
for SLIP-77 style blinding-key derivation (§4.2): the first argument is the
HMAC key, the second the message.  Modelled as a deterministic fold. -/
def hmacBytes (key msg : List Nat) : Nat :=
  let kh := key.foldl (fun a b => (a * 257 + b + 11400714819323198485) % (2 ^ 512)) 104729
  msg.foldl (fun a b => (a * 131 + b + kh) % (2 ^ 512)) kh

/-- Modelled from the spec: the EC public key corresponding to a private
scalar, in the modular discrete-log model of the curve group. -/
def pubOf (a : Nat) : Nat := (a * gGen) % secpOrder

/-- An extended key: optional private scalar, public key, chain code.  Mirrors
the external `ext_key` held through `wally_ext_key_ptr m_master_key`
(signer.hpp line 108); a public-only key has `priv = none`. -/
structure ext_key where
  priv : Option Nat
  pub : Nat
  chain : Nat
deriving DecidableEq

/-- The `xpub_t` result type of `get_xpub` (signer.hpp line 88): public key
plus chain code, no private part. -/
structure xpub_t where
  pub : Nat
  chain : Nat
deriving DecidableEq

/-- Drop the private part of an extended key. -/
def neuter (k : ext_key) : xpub_t := ⟨k.pub, k.chain⟩

/-- Modelled from the spec: one BIP32 child-derivation step, an external
primitive (§6).  Non-hardened indices tweak from public data; hardened indices
need the private scalar and fail (`none`) on a public-only key (§4.2
`get_xpub`); indices outside the unsigned 32-bit range fail. -/
def deriveChild (k : ext_key) (i : Nat) : Option ext_key :=
  if i < hardenedBound then
    let st := hmacStep k.chain k.pub i
    some { priv := k.priv.map (fun a => (a + st.1) % secpOrder),
           pub := (k.pub + st.1 * gGen) % secpOrder,
           chain := st.2 }
  else if i < indexBound then
    match k.priv with
    | none => none
    | some a =>
      let st := hmacStep k.chain a i
      some { priv := some ((a + st.1) % secpOrder),
             pub := (k.pub + st.1 * gGen) % secpOrder,
             chain := st.2 }
  else none

/-- Derive along a whole path `m/<path>`, step by step. -/
def derivePath (k : ext_key) : List Nat → Option ext_key
  | [] => some k
  | i :: rest =>
    match deriveChild k i with
    | none => none
    | some k2 => derivePath k2 rest

/-- Modelled from the spec: public-only BIP32 child derivation, the external
"quickly derive from the resulting key" primitive referred to by the header
comment at signer.hpp lines 85-87.  Fails on hardened indices, which prevent
public-only derivation (§ Glossary "BIP32 path"). -/
def derivePubChild (x : xpub_t) (j : Nat) : Option xpub_t :=
  if j < hardenedBound then
    let st := hmacStep x.chain x.pub j
    some ⟨(x.pub + st.1 * gGen) % secpOrder, st.2⟩
  else none

/-- Modelled from the spec: the seed derived from a recoverable phrase (§4.1
"standard seed-to-master-key derivation"; the BIP39 primitive is external).
Modelled as a deterministic fold over the phrase characters. -/
def seedOfPhrase (phrase : String) : Nat :=
  phrase.data.foldl (fun a c => (a * 131 + c.toNat) % (2 ^ 512)) 0

/-- Modelled from the spec: the master extended key derived from a seed (§4.1),
an external primitive; the private scalar and chain code come from one HMAC
step and the public key is the corresponding EC public key. -/
def seedToMasterKey (seed : Nat) : ext_key :=
  let st := hmacStep 0 seed 0
  { priv := some (st.1 % secpOrder), pub := pubOf st.1, chain := st.2 }

/-- Big-endian-agnostic byte expansion used to model 32-byte secrets. -/
def natToBytes : Nat → Nat → List Nat
  | 0, _ => []
  | n + 1, v => (v % 256) :: natToBytes n (v / 256)

/-- Modelled from the spec: the 32-byte master blinding key derived from the
secret material of a software signer on a confidential-asset chain (§3
`master_blinding_key` "derived from `secret_material`"); the SLIP-77 master
derivation itself is external. -/
def slip77MasterKey (seed : Nat) : List Nat :=
  natToBytes 32 ((hmacStep 1 seed 0).1)

/-- Modelled from the spec: SLIP-77 style per-output blinding-key derivation
(§4.2 `get_blinding_key_from_script`): HMAC with the master blinding key as
the HMAC key and the script bytes as the message, reduced to a scalar. -/
def slip77Derive (masterBlindingKey script : List Nat) : Nat :=
  hmacBytes masterBlindingKey script % secpOrder

/-- Modelled from the spec: plain deterministic ECDSA over a digest, an
external primitive (§6); modelled as a deterministic function of the private
scalar and the digest bytes. -/
def ecdsaSignModel (a : Nat) (hash : List Nat) : Nat :=
  (a * 99991 + hash.foldl (fun x b => (x * 131 + b) % (2 ^ 256)) 0) % (2 ^ 256)

/-- The Capability Descriptor (§2, §4.3): an immutable set of flags describing
what a signer instance can do, computed once at construction. -/
structure capability_descriptor where
  low_r : Bool
  arbitrary_scripts : Bool
  liquid_support : liquid_support_level
  host_unblinding : Bool
  ae_protocol : ae_protocol_support_level
deriving DecidableEq

/-- Modelled from the spec: the open key/value device descriptor passed to the
hardware factory (§3, §6), restricted to the recognized capability fields; an
absent field (`none`) takes the most conservative default (§4.3). -/
structure hw_device where
  reported_low_r : Option Bool
  reported_arbitrary_scripts : Option Bool
  reported_liquid_support : Option liquid_support_level
  reported_host_unblinding : Option Bool
  reported_ae_protocol : Option ae_protocol_support_level
deriving DecidableEq

/-- Modelled from the spec: Capability Descriptor computation for the
`Hardware` variant (§4.3): recognized keys are read from the descriptor, any
absent field defaults to the most conservative value. -/
def capsOfDevice (d : hw_device) : capability_descriptor :=
  { low_r := d.reported_low_r.getD false,
    arbitrary_scripts := d.reported_arbitrary_scripts.getD false,
    liquid_support := d.reported_liquid_support.getD .none,
    host_unblinding := d.reported_host_unblinding.getD false,
    ae_protocol := d.reported_ae_protocol.getD .none }

/-- Modelled from the spec: Capability Descriptor for the `WatchOnly` variant
(§4.3): all signing-related capabilities are the weakest possible. -/
def watchOnlyCaps : capability_descriptor :=
  { low_r := false, arbitrary_scripts := false, liquid_support := .none,
    host_unblinding := false, ae_protocol := .none }

/-- Modelled from the spec: Capability Descriptor for the `Software` variant
(§4.3): low-r and arbitrary scripts supported, AE protocol `none`, Liquid
support `lite` with host unblinding when the chain is
confidential-asset-capable. -/
def softwareCaps (net : network_parameters) : capability_descriptor :=
  { low_r := true, arbitrary_scripts := true,
    liquid_support := if net.is_liquid then .lite else .none,
    host_unblinding := net.is_liquid, ae_protocol := .none }

/-- Modelled from the spec: the `m_mnemonic` member (signer.hpp line 107) as a
tagged store — no phrase, a plaintext phrase, or a phrase held in
encrypted-at-rest form under a password (§4.2 `get_mnemonic`; the
`PASSWORD_SALT`-based encryption primitive itself is external). -/
inductive mnemonic_store where
  | empty
  | plain (phrase : String)
  | encrypted (phrase password : String)
deriving DecidableEq

/-- Modelled from the spec: the parsed form of the `mnemonic_or_xpub` string
accepted by the software factory (§4.1) — a recoverable phrase, an extended
public key, or an extended private key; the text encoding/decoding of
extended keys is an external primitive (§6). -/
inductive mnemonic_or_xpub where
  | mnemonic (phrase : String)
  | xpub (pub chain : Nat)
  | xprv (priv chain : Nat)
deriving DecidableEq

/-- The signer state, mirroring the member fields of `class signer`
(signer.hpp lines 102-109), with the Capability Descriptor of the spec (§2)
stored alongside as the capabilities computed once at construction. -/
structure signer where
  m_is_main_net : Bool
  m_is_liquid : Bool
  m_btc_version : Nat
  m_device : Option hw_device
  m_mnemonic : mnemonic_store
  m_master_key : Option ext_key
  m_master_blinding_key : Option (List Nat)
  m_capabilities : capability_descriptor
deriving DecidableEq

/-- Modelled from the spec: `make_watch_only_signer` (signer.hpp line 37;
§4.1 `make_watch_only`): no secret material, no device, capabilities reflect
"no signing possible". -/
def make_watch_only_signer (net : network_parameters) : signer :=
  { m_is_main_net := net.is_main_net, m_is_liquid := net.is_liquid,
    m_btc_version := net.btc_version, m_device := none,
    m_mnemonic := .empty, m_master_key := none,
    m_master_blinding_key := none, m_capabilities := watchOnlyCaps }

/-- Modelled from the spec: `make_hardware_signer` (signer.hpp lines 40-41;
§4.1 `make_hardware`): stores the device descriptor, no local secret
material, capabilities extracted from the descriptor. -/
def make_hardware_signer (net : network_parameters) (dev : hw_device) : signer :=
  { m_is_main_net := net.is_main_net, m_is_liquid := net.is_liquid,
    m_btc_version := net.btc_version, m_device := some dev,
    m_mnemonic := .empty, m_master_key := none,
    m_master_blinding_key := none, m_capabilities := capsOfDevice dev }

/-- Modelled from the spec: `make_software_signer` (signer.hpp lines 44-45;
§4.1 `make_software`): a phrase yields a private master key via the standard
seed derivation and, on a confidential-asset chain, the master blinding key
derived from the seed (§3); an extended public key yields a derivation-only
(public) master key; an extended private key yields a signing master key. -/
def make_software_signer (net : network_parameters) (inp : mnemonic_or_xpub) : signer :=
  match inp with
  | .mnemonic ph =>
    let seed := seedOfPhrase ph
    { m_is_main_net := net.is_main_net, m_is_liquid := net.is_liquid,
      m_btc_version := net.btc_version, m_device := none,
      m_mnemonic := .plain ph, m_master_key := some (seedToMasterKey seed),
      m_master_blinding_key := if net.is_liquid then some (slip77MasterKey seed) else none,
      m_capabilities := softwareCaps net }
  | .xpub p c =>
    { m_is_main_net := net.is_main_net, m_is_liquid := net.is_liquid,
      m_btc_version := net.btc_version, m_device := none,
      m_mnemonic := .empty, m_master_key := some { priv := none, pub := p, chain := c },
      m_master_blinding_key := none, m_capabilities := softwareCaps net }
  | .xprv a c =>
    { m_is_main_net := net.is_main_net, m_is_liquid := net.is_liquid,
      m_btc_version := net.btc_version, m_device := none,
      m_mnemonic := .empty,
      m_master_key := some { priv := some (a % secpOrder), pub := pubOf a, chain := c },
      m_master_blinding_key := none, m_capabilities := softwareCaps net }

/-- `supports_low_r` (signer.hpp line 60): pure read of the Capability
Descriptor. -/
def supports_low_r (s : signer) : Bool := s.m_capabilities.low_r

/-- `supports_arbitrary_scripts` (signer.hpp line 63): pure read of the
Capability Descriptor. -/
def supports_arbitrary_scripts (s : signer) : Bool := s.m_capabilities.arbitrary_scripts

/-- `get_liquid_support` (signer.hpp line 66): pure read of the Capability
Descriptor. -/
def get_liquid_support (s : signer) : liquid_support_level := s.m_capabilities.liquid_support

/-- `supports_host_unblinding` (signer.hpp line 69): pure read of the
Capability Descriptor. -/
def supports_host_unblinding (s : signer) : Bool := s.m_capabilities.host_unblinding

/-- `get_ae_protocol_support` (signer.hpp line 72): pure read of the
Capability Descriptor. -/
def get_ae_protocol_support (s : signer) : ae_protocol_support_level := s.m_capabilities.ae_protocol

/-- `is_liquid` (signer.hpp line 74): pure read of the `m_is_liquid` flag. -/
def is_liquid (s : signer) : Bool := s.m_is_liquid

/-- Modelled from the spec: `is_watch_only` (signer.hpp line 77) — true iff
the signer cannot sign: it is not hardware and holds no private key material
(§4.1: a software signer built from an extended public key is
derivation-only and must also report watch-only). -/
def is_watch_only (s : signer) : Bool :=
  s.m_device.isNone &&
    (match s.m_master_key with
     | none => true
     | some k => k.priv.isNone)

/-- `is_hardware` (signer.hpp line 80): true iff a device descriptor is
present. -/
def is_hardware (s : signer) : Bool := s.m_device.isSome

/-- `has_master_blinding_key` (signer.hpp line 98): true iff a blinding key
has been derived or injected (§4.2). -/
def has_master_blinding_key (s : signer) : Bool := s.m_master_blinding_key.isSome

/-- Modelled from the spec: `get_master_blinding_key` (signer.hpp line 99) —
returns the raw blinding key, fails with `Unavailable` if absent (§4.2). -/
def get_master_blinding_key (s : signer) : Except error_code (List Nat) :=
  match s.m_master_blinding_key with
  | some k => .ok k
  | none => .error .Unavailable

/-- Decode one hex digit, accepting both cases. -/
def hexDigitVal (c : Char) : Option Nat :=
  if '0' ≤ c ∧ c ≤ '9' then some (c.toNat - 48)
  else if 'a' ≤ c ∧ c ≤ 'f' then some (c.toNat - 87)
  else if 'A' ≤ c ∧ c ≤ 'F' then some (c.toNat - 55)
  else none

/-- Decode a list of hex digits two at a time into bytes; fails on a
non-digit or an odd length. -/
def hexBytes : List Char → Option (List Nat)
  | [] => some []
  | [_] => none
  | c1 :: c2 :: rest =>
    match hexDigitVal c1, hexDigitVal c2, hexBytes rest with
    | some hi, some lo, some tail => some ((16 * hi + lo) :: tail)
    | _, _, _ => none

/-- Modelled from the spec: hex-text decoding of the blinding key argument
(§6 "blinding key as ... hex text"); fails on malformed hex. -/
def hexDecode (s : String) : Option (List Nat) := hexBytes s.data

/-- Modelled from the spec: `get_mnemonic` (signer.hpp line 57; §4.2) —
returns the phrase when one is held (decrypting the at-rest form when the
password matches), the empty string when none is available, and fails with
`DecryptionError` on a wrong password for an encrypted blob.  The
password-based decryption primitive is external and modelled by the tagged
`mnemonic_store`. -/
def get_mnemonic (s : signer) (password : String) : Except error_code String × signer :=
  match s.m_mnemonic with
  | .empty => (.ok "", s)
  | .plain ph => (.ok ph, s)
  | .encrypted ph pw => if password = pw then (.ok ph, s) else (.error .DecryptionError, s)

/-- Modelled from the spec: `get_xpub` (signer.hpp line 88; §4.2) — local
BIP32 derivation from the stored master key; fails with `DerivationError` on
an invalid/overflowing path or when the path needs private-only hardened
derivation; watch-only signers without any key cannot derive; the hardware
forwarding path is external (§6 device proxy) and modelled as the device
being unavailable. -/
def get_xpub (s : signer) (path : List Nat) : Except error_code xpub_t × signer :=
  match s.m_master_key with
  | some m =>
    match derivePath m path with
    | some k => (.ok (neuter k), s)
    | none => (.error .DerivationError, s)
  | none =>
    if s.m_device.isSome then (.error .DeviceUnavailable, s)
    else (.error .NotSupported, s)

/-- Modelled from the spec: `get_bip32_xpub` (signer.hpp line 89; §4.2) —
the same derivation serialized to the standard extended-key text encoding,
which is an external primitive (§6) modelled as a readable rendering. -/
def get_bip32_xpub (s : signer) (path : List Nat) : Except error_code String × signer :=
  match get_xpub s path with
  | (.ok x, s2) => (.ok (toString x.pub ++ ":" ++ toString x.chain), s2)
  | (.error e, s2) => (.error e, s2)

/-- Modelled from the spec: `sign_hash` (signer.hpp line 92; §4.2) — fails
with `NotSupported` for watch-only and public-key-only software signers;
software signers with a private key sign locally with the key at `m/<path>`;
the hardware delegation is external (§6 device proxy) and modelled as the
device being unavailable. -/
def sign_hash (s : signer) (path hash : List Nat) : Except error_code Nat × signer :=
  match s.m_master_key with
  | none =>
    if s.m_device.isSome then (.error .DeviceUnavailable, s)
    else (.error .NotSupported, s)
  | some m =>
    match m.priv with
    | none => (.error .NotSupported, s)
    | some _ =>
      match derivePath m path with
      | none => (.error .DerivationError, s)
      | some k =>
        match k.priv with
        | some a => (.ok (ecdsaSignModel a hash), s)
        | none => (.error .NotSupported, s)

/-- Modelled from the spec: `get_blinding_key_from_script` (signer.hpp
line 94; §4.2) — valid only when `is_liquid()` and a master blinding key is
available, then the SLIP-77 style derivation with the master blinding key as
HMAC key and the script as message; `NotSupported` otherwise. -/
def get_blinding_key_from_script (s : signer) (script : List Nat) :
    Except error_code Nat × signer :=
  match s.m_master_blinding_key with
  | some k => if s.m_is_liquid then (.ok (slip77Derive k script), s) else (.error .NotSupported, s)
  | none => (.error .NotSupported, s)

/-- Modelled from the spec: `get_blinding_pubkey_from_script` (signer.hpp
line 96; §4.2) — the EC public key corresponding to the blinding private key
derived for the script. -/
def get_blinding_pubkey_from_script (s : signer) (script : List Nat) :
    Except error_code Nat × signer :=
  match get_blinding_key_from_script s script with
  | (.ok a, s2) => (.ok (pubOf a), s2)
  | (.error e, s2) => (.error e, s2)

/-- Modelled from the spec: `set_master_blinding_key` (signer.hpp line 100;
§4.2) — decodes the hex text and stores it: `InvalidInput` on malformed hex
or wrong length, idempotent success on the identical value, `Conflict` on a
differing value; storing a new key is possible only on a confidential-asset
chain, keeping the §3 invariant `master_blinding_key present ⇒ is_liquid`,
and an operation incompatible with the variant/capability is `NotSupported`
(§7).  On every failure the prior state is returned unchanged. -/
def set_master_blinding_key (s : signer) (blinding_key_hex : String) :
    Except error_code Unit × signer :=
  match hexDecode blinding_key_hex with
  | none => (.error .InvalidInput, s)
  | some b =>
    if b.length ≠ 32 then (.error .InvalidInput, s)
    else
      match s.m_master_blinding_key with
      | some k => if b = k then (.ok (), s) else (.error .Conflict, s)
      | none =>
        if s.m_is_liquid then (.ok (), { s with m_master_blinding_key := some b })
        else (.error .NotSupported, s)

/-- The states a signer can be in: produced by one of the three factory
entry points (§4.1) and closed under every operation of the interface, each
operation contributing its post-state. -/
inductive Reachable : signer → Prop where
  | watch_only (net : network_parameters) : Reachable (make_watch_only_signer net)
  | hardware (net : network_parameters) (dev : hw_device) :
      Reachable (make_hardware_signer net dev)
  | software (net : network_parameters) (inp : mnemonic_or_xpub) :
      Reachable (make_software_signer net inp)
  | step_get_mnemonic (s : signer) (pw : String) (h : Reachable s) :
      Reachable (get_mnemonic s pw).2
  | step_get_xpub (s : signer) (p : List Nat) (h : Reachable s) :
      Reachable (get_xpub s p).2
  | step_get_bip32_xpub (s : signer) (p : List Nat) (h : Reachable s) :
      Reachable (get_bip32_xpub s p).2
  | step_sign_hash (s : signer) (p hsh : List Nat) (h : Reachable s) :
      Reachable (sign_hash s p hsh).2
  | step_blinding_key (s : signer) (sc : List Nat) (h : Reachable s) :
      Reachable (get_blinding_key_from_script s sc).2
  | step_blinding_pubkey (s : signer) (sc : List Nat) (h : Reachable s) :
      Reachable (get_blinding_pubkey_from_script s sc).2
  | step_set_blinding_key (s : signer) (hx : String) (h : Reachable s) :
      Reachable (set_master_blinding_key s hx).2

deriving instance DecidableEq for Except

/-- `get_mnemonic` never changes the signer state. -/
theorem get_mnemonic_snd (s : signer) (pw : String) : (get_mnemonic s pw).2 = s := by
  unfold get_mnemonic
  repeat' split
  all_goals rfl

/-- `get_xpub` never changes the signer state. -/
theorem get_xpub_snd (s : signer) (p : List Nat) : (get_xpub s p).2 = s := by
  unfold get_xpub
  repeat' split
  all_goals rfl

/-- `get_bip32_xpub` never changes the signer state. -/
theorem get_bip32_xpub_snd (s : signer) (p : List Nat) : (get_bip32_xpub s p).2 = s := by
  have h := get_xpub_snd s p
  unfold get_bip32_xpub
  rcases hg : get_xpub s p with ⟨r, s2⟩
  rw [hg] at h
  cases r <;> simpa using h

/-- `sign_hash` never changes the signer state. -/
theorem sign_hash_snd (s : signer) (p hsh : List Nat) : (sign_hash s p hsh).2 = s := by
  unfold sign_hash
  repeat' split
  all_goals rfl

/-- `get_blinding_key_from_script` never changes the signer state. -/
theorem get_blinding_key_snd (s : signer) (sc : List Nat) :
    (get_blinding_key_from_script s sc).2 = s := by
  unfold get_blinding_key_from_script
  repeat' split
  all_goals rfl

/-- `get_blinding_pubkey_from_script` never changes the signer state. -/
theorem get_blinding_pubkey_snd (s : signer) (sc : List Nat) :
    (get_blinding_pubkey_from_script s sc).2 = s := by
  have h := get_blinding_key_snd s sc
  unfold get_blinding_pubkey_from_script
  rcases hg : get_blinding_key_from_script s sc with ⟨r, s2⟩
  rw [hg] at h
  cases r <;> simpa using h

/-- `set_master_blinding_key` touches only the `m_master_blinding_key`
field: capabilities, chain flags, device and key material are preserved. -/
theorem set_master_blinding_key_fields (s : signer) (hx : String) :
    ((set_master_blinding_key s hx).2).m_capabilities = s.m_capabilities ∧
    ((set_master_blinding_key s hx).2).m_is_liquid = s.m_is_liquid ∧
    ((set_master_blinding_key s hx).2).m_device = s.m_device ∧
    ((set_master_blinding_key s hx).2).m_master_key = s.m_master_key := by
  unfold set_master_blinding_key
  repeat' split
  all_goals exact ⟨rfl, rfl, rfl, rfl⟩

/-- A confidential-asset (Liquid) test network context. -/
def liquidTestNet : network_parameters :=
  { is_main_net := false, is_liquid := true, btc_version := 111 }

/-- A plain (non-confidential) test network context. -/
def btcTestNet : network_parameters :=
  { is_main_net := false, is_liquid := false, btc_version := 111 }

/-- A watch-only signer on the Liquid test network. -/
def watchOnlyLiquid : signer := make_watch_only_signer liquidTestNet

/-- A watch-only signer on the plain test network. -/
def watchOnlyBtc : signer := make_watch_only_signer btcTestNet

/-- A software signer built from a phrase on the Liquid test network. -/
def softwareLiquid : signer := make_software_signer liquidTestNet (.mnemonic "test phrase")

/-- 32 zero bytes as lowercase hex. -/
def hexZeros : String := "0000000000000000000000000000000000000000000000000000000000000000"

/-- 32 bytes of value 17 as lowercase hex. -/
def hexOnes : String := "1111111111111111111111111111111111111111111111111111111111111111"

/-- A watch-only Liquid signer whose master blinding key has been injected. -/
def presetSigner : signer := (set_master_blinding_key watchOnlyLiquid hexZeros).2

/-- Claim C1: every signer produced by `make_watch_only_signer` reports
watch-only, fails every `sign_hash` call with `NotSupported` for all paths
and hashes, and has no master blinding key until `set_master_blinding_key`
is explicitly called — no other operation changes its state. -/
theorem watch_only_signer_guarantees (net : network_parameters) :
    is_watch_only (make_watch_only_signer net) = true ∧
    (∀ path hash, sign_hash (make_watch_only_signer net) path hash
        = (.error .NotSupported, make_watch_only_signer net)) ∧
    has_master_blinding_key (make_watch_only_signer net) = false ∧
    (∀ pw, (get_mnemonic (make_watch_only_signer net) pw).2 = make_watch_only_signer net) ∧
    (∀ p, (get_xpub (make_watch_only_signer net) p).2 = make_watch_only_signer net) ∧
    (∀ p, (get_bip32_xpub (make_watch_only_signer net) p).2 = make_watch_only_signer net) ∧
    (∀ sc, (get_blinding_key_from_script (make_watch_only_signer net) sc).2
        = make_watch_only_signer net) ∧
    (∀ sc, (get_blinding_pubkey_from_script (make_watch_only_signer net) sc).2
        = make_watch_only_signer net) :=
  ⟨rfl, fun _ _ => rfl, rfl, fun pw => get_mnemonic_snd _ pw, fun p => get_xpub_snd _ p,
    fun p => get_bip32_xpub_snd _ p, fun sc => get_blinding_key_snd _ sc,
    fun sc => get_blinding_pubkey_snd _ sc⟩

/-- Claim C2: a signer built through the software construction path from a
well-formed extended public key (not a mnemonic, not a private extended key)
reports watch-only. -/
theorem software_xpub_signer_is_watch_only (net : network_parameters) (p c : Nat) :
    is_watch_only (make_software_signer net (.xpub p c)) = true := rfl

/-- Claim C3: on a signer with no master blinding key set, a successful
`set_master_blinding_key hx` followed by `get_master_blinding_key` returns
exactly the bytes obtained by hex-decoding `hx`. -/
theorem set_master_blinding_key_roundtrip (s : signer) (hx : String)
    (h0 : s.m_master_blinding_key = none)
    (hok : (set_master_blinding_key s hx).1 = .ok ()) :
    ∃ b, hexDecode hx = some b ∧
      get_master_blinding_key (set_master_blinding_key s hx).2 = .ok b := by
  unfold set_master_blinding_key at hok ⊢
  cases hd : hexDecode hx with
  | none => rw [hd] at hok; simp at hok
  | some b =>
    rw [hd] at hok
    refine ⟨b, rfl, ?_⟩
    by_cases hlen : b.length = 32
    · by_cases hliq : s.m_is_liquid = true
      · simp [hlen, h0, hliq, get_master_blinding_key]
      · simp [hlen, h0, hliq] at hok
    · simp [hlen] at hok

/-- Witness for C3 at a concrete watch-only Liquid signer and hex string. -/
theorem set_master_blinding_key_roundtrip_witness :
    ∃ b, hexDecode hexZeros = some b ∧
      get_master_blinding_key (set_master_blinding_key watchOnlyLiquid hexZeros).2 = .ok b :=
  set_master_blinding_key_roundtrip watchOnlyLiquid hexZeros rfl (by decide)

/-- Claim C4: on a signer whose master blinding key is already set to `k`,
`set_master_blinding_key` is idempotent for hex decoding to `k` (the state is
returned unchanged), fails with `Conflict` for hex decoding to a different
well-formed value, fails with `InvalidInput` on malformed hex or a
wrong-length value, and in every failing case returns the prior state
unchanged. -/
theorem set_master_blinding_key_conflict_rules (s : signer) (hx : String) (k : List Nat)
    (hk : s.m_master_blinding_key = some k) (hk32 : k.length = 32) :
    (hexDecode hx = some k → set_master_blinding_key s hx = (.ok (), s)) ∧
    (∀ k2, hexDecode hx = some k2 → k2.length = 32 → k2 ≠ k →
        set_master_blinding_key s hx = (.error .Conflict, s)) ∧
    (hexDecode hx = none → set_master_blinding_key s hx = (.error .InvalidInput, s)) ∧
    (∀ k2, hexDecode hx = some k2 → k2.length ≠ 32 →
        set_master_blinding_key s hx = (.error .InvalidInput, s)) := by
  refine ⟨?_, ?_, ?_, ?_⟩
  · intro hd
    unfold set_master_blinding_key
    rw [hd]
    simp [hk32, hk]
  · intro k2 hd h32 hne
    unfold set_master_blinding_key
    rw [hd]
    simp [h32, hk, hne]
  · intro hd
    unfold set_master_blinding_key
    rw [hd]
  · intro k2 hd h32
    unfold set_master_blinding_key
    rw [hd]
    simp [h32]

/-- Witness for C4 at a concrete Liquid signer holding the all-zero key:
idempotent re-set, conflicting re-set, malformed hex, wrong-length hex. -/
theorem set_master_blinding_key_conflict_rules_witness :
    set_master_blinding_key presetSigner hexZeros = (.ok (), presetSigner) ∧
    set_master_blinding_key presetSigner hexOnes = (.error .Conflict, presetSigner) ∧
    set_master_blinding_key presetSigner "zz" = (.error .InvalidInput, presetSigner) ∧
    set_master_blinding_key presetSigner "aabb" = (.error .InvalidInput, presetSigner) := by
  refine ⟨?_, ?_, ?_, ?_⟩
  · exact (set_master_blinding_key_conflict_rules presetSigner hexZeros
      (List.replicate 32 0) (by decide) (by decide)).1 (by decide)
  · exact (set_master_blinding_key_conflict_rules presetSigner hexOnes
      (List.replicate 32 0) (by decide) (by decide)).2.1
      (List.replicate 32 17) (by decide) (by decide) (by decide)
  · exact (set_master_blinding_key_conflict_rules presetSigner "zz"
      (List.replicate 32 0) (by decide) (by decide)).2.2.1 (by decide)
  · exact (set_master_blinding_key_conflict_rules presetSigner "aabb"
      (List.replicate 32 0) (by decide) (by decide)).2.2.2 [170, 187] (by decide) (by decide)

/-- A non-hardened child derivation always succeeds, with the tweak computed
from public data only. -/
theorem deriveChild_nonhardened (k : ext_key) (i : Nat) (hi : i < hardenedBound) :
    deriveChild k i = some
      { priv := k.priv.map (fun a => (a + (hmacStep k.chain k.pub i).1) % secpOrder),
        pub := (k.pub + (hmacStep k.chain k.pub i).1 * gGen) % secpOrder,
        chain := (hmacStep k.chain k.pub i).2 } := by
  unfold deriveChild
  rw [if_pos hi]

/-- Public-only derivation agrees with neutering the full non-hardened child:
the BIP32 public/private derivation homomorphism of the model. -/
theorem derivePubChild_neuter (k : ext_key) (j : Nat) (hj : j < hardenedBound)
    (k2 : ext_key) (h2 : deriveChild k j = some k2) :
    derivePubChild (neuter k) j = some (neuter k2) := by
  rw [deriveChild_nonhardened k j hj] at h2
  cases h2
  unfold derivePubChild neuter
  rw [if_pos hj]

/-- Claim C5: `get_xpub` on a software signer (one holding a master key) does
not change the signer state, and a second call on the resulting state returns
the same result as the first — derivation is deterministic in the path. -/
theorem get_xpub_deterministic (s : signer) (m : ext_key) (p : List Nat)
    (hm : s.m_master_key = some m) :
    (get_xpub s p).2 = s ∧
    (get_xpub ((get_xpub s p).2) p).1 = (get_xpub s p).1 := by
  have h2 : (get_xpub s p).2 = s := get_xpub_snd s p
  exact ⟨h2, by rw [h2]⟩

/-- Witness for C5 at a concrete software signer and path. -/
theorem get_xpub_deterministic_witness :
    (get_xpub softwareLiquid [0]).2 = softwareLiquid ∧
    (get_xpub ((get_xpub softwareLiquid [0]).2) [0]).1 = (get_xpub softwareLiquid [0]).1 :=
  get_xpub_deterministic softwareLiquid (seedToMasterKey (seedOfPhrase "test phrase")) [0] rfl

/-- Claim C6: for a software signer and non-hardened indices `i, j`, deriving
the child xpub at `[i]` and then one further public step `j` from that child
yields exactly the xpub `get_xpub` returns for the path `[i, j]` — BIP32
derivation composes. -/
theorem get_xpub_bip32_compose (s : signer) (m : ext_key) (i j : Nat)
    (hm : s.m_master_key = some m) (hi : i < hardenedBound) (hj : j < hardenedBound) :
    ∃ c d, (get_xpub s [i]).1 = .ok c ∧ derivePubChild c j = some d ∧
      (get_xpub s [i, j]).1 = .ok d := by
  obtain ⟨k1, e1⟩ : ∃ k1, deriveChild m i = some k1 := ⟨_, deriveChild_nonhardened m i hi⟩
  obtain ⟨k2, e2⟩ : ∃ k2, deriveChild k1 j = some k2 := ⟨_, deriveChild_nonhardened k1 j hj⟩
  refine ⟨neuter k1, neuter k2, ?_, derivePubChild_neuter k1 j hj k2 e2, ?_⟩
  · simp [get_xpub, hm, derivePath, e1]
  · simp [get_xpub, hm, derivePath, e1, e2]

/-- Witness for C6 at a concrete software signer with indices 0 and 1. -/
theorem get_xpub_bip32_compose_witness :
    ∃ c d, (get_xpub softwareLiquid [0]).1 = .ok c ∧ derivePubChild c 1 = some d ∧
      (get_xpub softwareLiquid [0, 1]).1 = .ok d :=
  get_xpub_bip32_compose softwareLiquid (seedToMasterKey (seedOfPhrase "test phrase")) 0 1
    rfl (by decide) (by decide)

/-- All eight capability/variant queries agree on two signer states. -/
def queries_stable (s s2 : signer) : Prop :=
  supports_low_r s2 = supports_low_r s ∧
  supports_arbitrary_scripts s2 = supports_arbitrary_scripts s ∧
  get_liquid_support s2 = get_liquid_support s ∧
  supports_host_unblinding s2 = supports_host_unblinding s ∧
  get_ae_protocol_support s2 = get_ae_protocol_support s ∧
  is_liquid s2 = is_liquid s ∧
  is_watch_only s2 = is_watch_only s ∧
  is_hardware s2 = is_hardware s

/-- The queries agree on equal states. -/
theorem queries_stable_refl (s s2 : signer) (h : s2 = s) : queries_stable s s2 := by
  subst h
  exact ⟨rfl, rfl, rfl, rfl, rfl, rfl, rfl, rfl⟩

/-- Claim C7: the capability and variant queries are pure reads of state
fixed at construction: every operation of the interface, including
`set_master_blinding_key`, leaves all eight query results unchanged. -/
theorem capability_queries_stable (s : signer) (hx pw : String) (p hsh sc : List Nat) :
    queries_stable s (set_master_blinding_key s hx).2 ∧
    queries_stable s (get_mnemonic s pw).2 ∧
    queries_stable s (get_xpub s p).2 ∧
    queries_stable s (get_bip32_xpub s p).2 ∧
    queries_stable s (sign_hash s p hsh).2 ∧
    queries_stable s (get_blinding_key_from_script s sc).2 ∧
    queries_stable s (get_blinding_pubkey_from_script s sc).2 := by
  obtain ⟨hcap, hliq, hdev, hkey⟩ := set_master_blinding_key_fields s hx
  refine ⟨⟨?_, ?_, ?_, ?_, ?_, ?_, ?_, ?_⟩,
    queries_stable_refl s _ (get_mnemonic_snd s pw),
    queries_stable_refl s _ (get_xpub_snd s p),
    queries_stable_refl s _ (get_bip32_xpub_snd s p),
    queries_stable_refl s _ (sign_hash_snd s p hsh),
    queries_stable_refl s _ (get_blinding_key_snd s sc),
    queries_stable_refl s _ (get_blinding_pubkey_snd s sc)⟩
  · unfold supports_low_r; rw [hcap]
  · unfold supports_arbitrary_scripts; rw [hcap]
  · unfold get_liquid_support; rw [hcap]
  · unfold supports_host_unblinding; rw [hcap]
  · unfold get_ae_protocol_support; rw [hcap]
  · unfold is_liquid; rw [hliq]
  · unfold is_watch_only; rw [hdev, hkey]
  · unfold is_hardware; rw [hdev]

/-- Storing a new blinding key is guarded by the confidential-asset flag, so
`set_master_blinding_key` preserves the blinding-key/liquid invariant. -/
theorem set_master_blinding_key_liquid_inv (s : signer) (hx : String)
    (ih : has_master_blinding_key s = true → is_liquid s = true)
    (h : has_master_blinding_key (set_master_blinding_key s hx).2 = true) :
    is_liquid (set_master_blinding_key s hx).2 = true := by
  unfold set_master_blinding_key at h ⊢
  repeat' split at h
  all_goals simp_all [has_master_blinding_key, is_liquid]

/-- Claim C8: in every reachable signer state, a present master blinding key
implies a confidential-asset (liquid) signer; and the converse fails — there
is a reachable liquid signer without a master blinding key. -/
theorem master_blinding_key_implies_liquid :
    (∀ s, Reachable s → has_master_blinding_key s = true → is_liquid s = true) ∧
    (∃ s, Reachable s ∧ is_liquid s = true ∧ has_master_blinding_key s = false) := by
  constructor
  · intro s hs
    induction hs with
    | watch_only net =>
      intro h
      simp [has_master_blinding_key, make_watch_only_signer] at h
    | hardware net dev =>
      intro h
      simp [has_master_blinding_key, make_hardware_signer] at h
    | software net inp =>
      intro h
      cases inp with
      | mnemonic ph =>
        cases hln : net.is_liquid with
        | false =>
          simp [has_master_blinding_key, make_software_signer, hln] at h
        | true =>
          simp [is_liquid, make_software_signer, hln]
      | xpub p c =>
        simp [has_master_blinding_key, make_software_signer] at h
      | xprv a c =>
        simp [has_master_blinding_key, make_software_signer] at h
    | step_get_mnemonic s pw hr ih => rw [get_mnemonic_snd]; exact ih
    | step_get_xpub s p hr ih => rw [get_xpub_snd]; exact ih
    | step_get_bip32_xpub s p hr ih => rw [get_bip32_xpub_snd]; exact ih
    | step_sign_hash s p hsh hr ih => rw [sign_hash_snd]; exact ih
    | step_blinding_key s sc hr ih => rw [get_blinding_key_snd]; exact ih
    | step_blinding_pubkey s sc hr ih => rw [get_blinding_pubkey_snd]; exact ih
    | step_set_blinding_key s hx hr ih => exact set_master_blinding_key_liquid_inv s hx ih
  · exact ⟨watchOnlyLiquid, Reachable.watch_only liquidTestNet, rfl, rfl⟩

/-- Witness for C8 at a concrete reachable software signer whose master
blinding key was derived at construction. -/
theorem master_blinding_key_implies_liquid_witness :
    is_liquid softwareLiquid = true :=
  master_blinding_key_implies_liquid.1 softwareLiquid
    (Reachable.software liquidTestNet (.mnemonic "test phrase")) rfl

/-- Claim C9: `get_blinding_key_from_script` fails with `NotSupported` when
the signer is not liquid or holds no master blinding key; otherwise it
returns the SLIP-77 style derivation (HMAC keyed by the master blinding key
over the script bytes), state unchanged, and
`get_blinding_pubkey_from_script` returns exactly the EC public key of that
private key. -/
theorem blinding_key_from_script_rules (s : signer) (script : List Nat) :
    ((s.m_is_liquid = false ∨ s.m_master_blinding_key = none) →
      get_blinding_key_from_script s script = (.error .NotSupported, s) ∧
      get_blinding_pubkey_from_script s script = (.error .NotSupported, s)) ∧
    (∀ k, s.m_is_liquid = true → s.m_master_blinding_key = some k →
      get_blinding_key_from_script s script = (.ok (slip77Derive k script), s) ∧
      get_blinding_pubkey_from_script s script = (.ok (pubOf (slip77Derive k script)), s)) := by
  constructor
  · intro h
    have hk : get_blinding_key_from_script s script = (.error .NotSupported, s) := by
      unfold get_blinding_key_from_script
      cases hm : s.m_master_blinding_key with
      | none => rfl
      | some k =>
        rcases h with h | h
        · rw [h]; rfl
        · rw [hm] at h; cases h
    exact ⟨hk, by unfold get_blinding_pubkey_from_script; rw [hk]⟩
  · intro k hliq hm
    have hk : get_blinding_key_from_script s script = (.ok (slip77Derive k script), s) := by
      unfold get_blinding_key_from_script
      rw [hm, hliq]
      rfl
    exact ⟨hk, by unfold get_blinding_pubkey_from_script; rw [hk]⟩

/-- Witness for C9: the derivation succeeds on a liquid signer holding the
all-zero key and fails with `NotSupported` on a non-liquid watch-only
signer. -/
theorem blinding_key_from_script_rules_witness :
    (get_blinding_key_from_script presetSigner [1, 2]
        = (.ok (slip77Derive (List.replicate 32 0) [1, 2]), presetSigner) ∧
      get_blinding_pubkey_from_script presetSigner [1, 2]
        = (.ok (pubOf (slip77Derive (List.replicate 32 0) [1, 2])), presetSigner)) ∧
    (get_blinding_key_from_script watchOnlyBtc [1, 2] = (.error .NotSupported, watchOnlyBtc) ∧
      get_blinding_pubkey_from_script watchOnlyBtc [1, 2]
        = (.error .NotSupported, watchOnlyBtc)) :=
  ⟨(blinding_key_from_script_rules presetSigner [1, 2]).2
      (List.replicate 32 0) (by decide) (by decide),
    (blinding_key_from_script_rules watchOnlyBtc [1, 2]).1 (Or.inr rfl)⟩

/-- Claim C10: `get_mnemonic` returns the empty string (state unchanged) for
watch-only, hardware, and software signers built from an extended key; on a
signer holding a phrase in encrypted-at-rest form the correct password
recovers the phrase and a wrong password fails with `DecryptionError`; and
`DecryptionError` arises only when an encrypted blob exists and the password
does not match. -/
theorem get_mnemonic_rules (s : signer) (pw : String) :
    (∀ net p2, get_mnemonic (make_watch_only_signer net) p2
        = (.ok "", make_watch_only_signer net)) ∧
    (∀ net dev p2, get_mnemonic (make_hardware_signer net dev) p2
        = (.ok "", make_hardware_signer net dev)) ∧
    (∀ net p c p2, get_mnemonic (make_software_signer net (.xpub p c)) p2
        = (.ok "", make_software_signer net (.xpub p c))) ∧
    (∀ net a c p2, get_mnemonic (make_software_signer net (.xprv a c)) p2
        = (.ok "", make_software_signer net (.xprv a c))) ∧
    (∀ ph p0, s.m_mnemonic = .encrypted ph p0 →
      (pw = p0 → get_mnemonic s pw = (.ok ph, s)) ∧
      (pw ≠ p0 → get_mnemonic s pw = (.error .DecryptionError, s))) ∧
    ((get_mnemonic s pw).1 = .error .DecryptionError →
      ∃ ph p0, s.m_mnemonic = .encrypted ph p0 ∧ pw ≠ p0) := by
  refine ⟨fun net p2 => rfl, fun net dev p2 => rfl, fun net p c p2 => rfl,
    fun net a c p2 => rfl, ?_, ?_⟩
  · intro ph p0 henc
    constructor
    · intro hpw
      unfold get_mnemonic
      rw [henc]
      simp [hpw]
    · intro hpw
      unfold get_mnemonic
      rw [henc]
      simp [hpw]
  · intro herr
    unfold get_mnemonic at herr
    cases hm : s.m_mnemonic with
    | empty => rw [hm] at herr; simp at herr
    | plain ph => rw [hm] at herr; simp at herr
    | encrypted ph p0 =>
      rw [hm] at herr
      by_cases hpw : pw = p0
      · simp [hpw] at herr
      · exact ⟨ph, p0, rfl, hpw⟩

/-- A signer holding its phrase in encrypted-at-rest form, for the C10
witness. -/
def encryptedSigner : signer :=
  { make_watch_only_signer liquidTestNet with m_mnemonic := .encrypted "alpha bravo" "hunter2" }

/-- Witness for C10: correct password recovers the phrase, a wrong password
fails with `DecryptionError`, and a watch-only signer yields the empty
string. -/
theorem get_mnemonic_rules_witness :
    get_mnemonic encryptedSigner "hunter2" = (.ok "alpha bravo", encryptedSigner) ∧
    get_mnemonic encryptedSigner "wrong" = (.error .DecryptionError, encryptedSigner) ∧
    get_mnemonic (make_watch_only_signer liquidTestNet) "pw"
      = (.ok "", make_watch_only_signer liquidTestNet) :=
  ⟨((get_mnemonic_rules encryptedSigner "hunter2").2.2.2.2.1 "alpha bravo" "hunter2" rfl).1 rfl,
    ((get_mnemonic_rules encryptedSigner "wrong").2.2.2.2.1 "alpha bravo" "hunter2" rfl).2
      (by decide),
    (get_mnemonic_rules encryptedSigner "pw").1 liquidTestNet "pw"⟩
